import Mathlib

set_option maxRecDepth 2000

/-!
Verification of the `resumex` deployment tool against its specification.

The development shallowly embeds the TypeScript sources:

* `src/src/config/naming.ts` — `ResourceNamingService` (resource-name
  generation, sanitization, truncation, conflict checks, environment
  config resolution);
* the deployment orchestrator (`DeploymentOrchestrator`) — `deploy`,
  `deployStack`, `waitForStackOperation` and friends.

JavaScript strings are modelled as lists of UTF-16 code units
(`List Nat`); JS 32-bit integer arithmetic is modelled on `Int` with an
explicit reduction modulo `2^32`.  External AWS collaborators are
modelled as an explicit environment of `Except`-valued calls.
-/

namespace Resumex

/-- JS strings, as lists of UTF-16 code units. -/
abbrev Str := List Nat

/-- Convert an ASCII Lean string literal to the `Str` model.  All string
literals appearing in the sources are ASCII, where the code point equals
the UTF-16 code unit. -/
def S (s : String) : Str := s.data.map Char.toNat

/-- The regex class `[a-zA-Z0-9-]` from `sanitizeName` (`naming.ts:260`). -/
def isAllowedCode (c : Nat) : Bool :=
  decide (65 ≤ c ∧ c ≤ 90) || decide (97 ≤ c ∧ c ≤ 122) ||
    decide (48 ≤ c ∧ c ≤ 57) || decide (c = 45)

/-- The regex class `[a-zA-Z]` from `sanitizeName` (`naming.ts:269`). -/
def isLetterCode (c : Nat) : Bool :=
  decide (65 ≤ c ∧ c ≤ 90) || decide (97 ≤ c ∧ c ≤ 122)

/-- ASCII fragment of JS `String.prototype.toLowerCase`, applied
code-unit-wise.  In the sources `toLowerCase` is only applied to names,
whose relevant alphabet is ASCII. -/
def jsToLower (c : Nat) : Nat := if 65 ≤ c ∧ c ≤ 90 then c + 32 else c

/-- `name.toLowerCase()` on the `Str` model. -/
def jsToLowerStr (s : Str) : Str := s.map jsToLower

/-- JS `ToInt32`: reduce an integer modulo `2^32` into `[-2^31, 2^31)`. -/
def toInt32 (n : Int) : Int :=
  if n % (2 ^ 32 : Int) < 2 ^ 31 then n % (2 ^ 32 : Int)
  else n % (2 ^ 32 : Int) - 2 ^ 32

/-- One step of `generateShortHash`'s loop (`naming.ts:302-306`):
`hash = ((hash << 5) - hash) + char; hash = hash & hash`.  Both `<< 5`
and `& `truncate to 32-bit signed integers; the intermediate sum is
exact in JS doubles at these magnitudes. -/
def hashStep (h : Int) (c : Nat) : Int := toInt32 (toInt32 (h * 32) - h + c)

/-- The rolling hash of `generateShortHash` over a whole string. -/
def jsHash (s : Str) : Int := s.foldl hashStep 0

/-- Code unit of a base-36 digit, as produced by JS `toString(36)`
(digits `0-9` then lowercase `a-z`). -/
def base36digitCode (d : Nat) : Nat := if d < 10 then 48 + d else 87 + d

/-- Digit-extraction loop of JS `n.toString(36)`.  The structural fuel
argument is only a totality device: `fuel ≥ n` always suffices, and at
`fuel = 0` the invariant forces `n = 0`, a single digit. -/
def toBase36Go (fuel n : Nat) : Str :=
  match fuel with
  | 0 => [base36digitCode n]
  | fuel + 1 =>
    if n < 36 then [base36digitCode n]
    else toBase36Go fuel (n / 36) ++ [base36digitCode (n % 36)]

/-- JS `n.toString(36)` for a natural number. -/
def toBase36 (n : Nat) : Str := toBase36Go n n

theorem toBase36Go_irrel : ∀ f₁ : Nat, ∀ f₂ n : Nat, n ≤ f₁ → n ≤ f₂ →
    toBase36Go f₁ n = toBase36Go f₂ n := by
  intro f₁
  induction f₁ with
  | zero =>
    intro f₂ n h1 _
    interval_cases n
    cases f₂ <;> simp [toBase36Go]
  | succ f ih =>
    intro f₂ n h1 h2
    cases f₂ with
    | zero =>
      interval_cases n
      simp [toBase36Go]
    | succ f' =>
      rw [toBase36Go, toBase36Go]
      by_cases h36 : n < 36
      · rw [if_pos h36, if_pos h36]
      · rw [if_neg h36, if_neg h36]
        have hlt : n / 36 < n := Nat.div_lt_self (by omega) (by omega)
        rw [ih f' (n / 36) (by omega) (by omega)]

/-- The defining recurrence of `toBase36`, independent of fuel. -/
theorem toBase36_eq (n : Nat) : toBase36 n =
    if n < 36 then [base36digitCode n]
    else toBase36 (n / 36) ++ [base36digitCode (n % 36)] := by
  unfold toBase36
  cases hn : n with
  | zero => simp [toBase36Go]
  | succ m =>
    rw [toBase36Go]
    by_cases h36 : m + 1 < 36
    · rw [if_pos h36, if_pos h36]
    · rw [if_neg h36, if_neg h36]
      have hlt : (m + 1) / 36 < m + 1 := Nat.div_lt_self (by omega) (by omega)
      rw [toBase36Go_irrel m ((m+1)/36) ((m+1)/36) (by omega) (by omega)]

/-- Digit-extraction loop of JS `n.toString()` (decimal), with the same
fuel device as `toBase36Go`. -/
def toDecimalGo (fuel n : Nat) : Str :=
  match fuel with
  | 0 => [48 + n]
  | fuel + 1 =>
    if n < 10 then [48 + n]
    else toDecimalGo fuel (n / 10) ++ [48 + n % 10]

/-- JS `n.toString()` (decimal) for a natural number. -/
def toDecimal (n : Nat) : Str := toDecimalGo n n

/-- `ResourceNamingService.generateShortHash` (`naming.ts:300-308`):
`Math.abs(hash).toString(36).substring(0, 6)`. -/
def generateShortHash (s : Str) : Str := (toBase36 (jsHash s).natAbs).take 6

/-- `ResourceNamingService.validateAndTruncate` (`naming.ts:284-295`).
The unused `resourceType` parameter (only ever a label) is dropped. -/
def validateAndTruncate (name : Str) (maxLength : Nat) : Str :=
  if name.length ≤ maxLength then name
  else
    let hash := generateShortHash name
    let truncatedLength := maxLength - hash.length - 1
    name.take truncatedLength ++ 45 :: hash

/-- Step 1 of `sanitizeName` (`naming.ts:260`): replace every character
outside `[a-zA-Z0-9-]` with `-` (code 45). -/
def sanitizeStep1 (name : Str) : Str :=
  name.map fun c => if isAllowedCode c then c else 45

/-- Step 2 of `sanitizeName` (`naming.ts:263`): collapse every run of
hyphens to a single hyphen. -/
def collapseHyphens : Str → Str
  | [] => []
  | [c] => [c]
  | a :: b :: rest =>
    if a = 45 ∧ b = 45 then collapseHyphens (b :: rest)
    else a :: collapseHyphens (b :: rest)

/-- Step 3 of `sanitizeName` (`naming.ts:266`): trim leading and
trailing hyphens. -/
def trimHyphens (s : Str) : Str :=
  (((s.dropWhile (· = 45)).reverse).dropWhile (· = 45)).reverse

/-- Steps 1-3 of `sanitizeName` composed (`naming.ts:260-266`). -/
def sanitizeTrimmed (name : Str) : Str :=
  trimHyphens (collapseHyphens (sanitizeStep1 name))

/-- Step 4 of `sanitizeName` (`naming.ts:269-271`): prepend `app-` when
the (non-empty) result does not start with a letter. -/
def sanitizePrefixed (name : Str) : Str :=
  if sanitizeTrimmed name ≠ [] ∧ isLetterCode ((sanitizeTrimmed name).headD 0) = false then
    S "app-" ++ sanitizeTrimmed name
  else sanitizeTrimmed name

/-- `ResourceNamingService.sanitizeName` (`naming.ts:258-279`); step 5
falls back to the literal `app` when everything was stripped. -/
def sanitizeName (name : Str) : Str :=
  if sanitizePrefixed name = [] then S "app" else sanitizePrefixed name

/-- Application type union `'frontend' | 'backend' | 'fullstack'`. -/
inductive AppType where
  | frontend
  | backend
  | fullstack
deriving DecidableEq, Repr

/-- `ApplicationConfig` from `src/src/types/index.ts`. -/
structure ApplicationConfig where
  name : Str
  type : AppType
  version : Option Str
deriving DecidableEq, Repr

/-- `AWSConfig` from `src/src/types/index.ts`. -/
structure AWSConfig where
  region : Option Str
  profile : Option Str
deriving DecidableEq, Repr

/-- `FrontendConfig`; fields are optional in the model because the
untyped `deepMerge` can build partially-populated objects at runtime. -/
structure FrontendConfig where
  source_dir : Option Str
  index_file : Option Str
  custom_domain : Option Str
  build_command : Option Str
deriving DecidableEq, Repr

/-- `BackendConfig`; same runtime-laxity remark as `FrontendConfig`.
`Record<string, string>` objects are modelled as association lists. -/
structure BackendConfig where
  source_dir : Option Str
  handler : Option Str
  runtime : Option Str
  timeout : Option Nat
  memory : Option Nat
  environment_variables : Option (List (Str × Str))
deriving DecidableEq, Repr

/-- `DeploymentSettings` from `src/src/types/index.ts`. -/
structure DeploymentSettings where
  stack_name : Option Str
  tags : Option (List (Str × Str))
  enable_monitoring : Option Bool
deriving DecidableEq, Repr

/-- `DeploymentConfig` from `src/src/types/index.ts`. -/
structure DeploymentConfig where
  application : ApplicationConfig
  aws : AWSConfig
  frontend : Option FrontendConfig
  backend : Option BackendConfig
  deployment : DeploymentSettings
deriving DecidableEq, Repr

/-- `NamingConfig` (`naming.ts:6-17`).  The `prefix`/`suffix` fields are
renamed with a trailing underscore. -/
structure NamingConfig where
  applicationName : Str
  environment : Option Str
  region : Str
  prefix_ : Option Str
  suffix_ : Option Str
deriving DecidableEq, Repr

/-- `ResourceNames` (`naming.ts:22-35`). -/
structure ResourceNames where
  stackName : Str
  s3BucketName : Option Str
  lambdaFunctionName : Option Str
  lambdaExecutionRoleName : Option Str
  apiGatewayName : Option Str
  logGroupName : Option Str
deriving DecidableEq, Repr

/-- `parts.filter(Boolean)` on an array of possibly-undefined strings:
drops both `undefined` entries and empty strings (both are falsy). -/
def filterBoolean (parts : List (Option Str)) : List Str :=
  parts.filterMap fun p =>
    match p with
    | none => none
    | some s => if s = [] then none else some s

/-- `parts.join('-')`. -/
def joinHyphen (parts : List Str) : Str := List.intercalate [45] parts

/-- `config.applicationName || 'app'` (empty string is falsy). -/
def orApp (s : Str) : Str := if s = [] then S "app" else s

/-- The joined parts of `generateStackName` (`naming.ts:132-139`). -/
def stackParts (c : NamingConfig) : Str :=
  joinHyphen (filterBoolean [c.prefix_, some c.applicationName, c.environment, c.suffix_])

/-- `ResourceNamingService.generateStackName` (`naming.ts:131-141`). -/
def generateStackName (c : NamingConfig) : Str :=
  validateAndTruncate (sanitizeName (stackParts c)) 128

/-- The pre-truncation S3 bucket name of `generateS3BucketName`
(`naming.ts:146-157`); `now` models `Date.now()`. -/
def s3Base (c : NamingConfig) (now : Nat) : Str :=
  jsToLowerStr (sanitizeName (joinHyphen (filterBoolean
    [c.prefix_, some (orApp c.applicationName), c.environment,
     some (S "frontend"), some (toBase36 now), c.suffix_])))

/-- `ResourceNamingService.generateS3BucketName` (`naming.ts:146-159`). -/
def generateS3BucketName (c : NamingConfig) (now : Nat) : Str :=
  validateAndTruncate (s3Base c now) 63

/-- The pre-truncation Lambda function name (`naming.ts:164-173`). -/
def lambdaBase (c : NamingConfig) : Str :=
  sanitizeName (joinHyphen (filterBoolean
    [c.prefix_, some (orApp c.applicationName), c.environment,
     some (S "lambda"), c.suffix_]))

/-- `ResourceNamingService.generateLambdaFunctionName` (`naming.ts:164-175`). -/
def generateLambdaFunctionName (c : NamingConfig) : Str :=
  validateAndTruncate (lambdaBase c) 64

/-- The pre-truncation Lambda execution role name (`naming.ts:180-189`). -/
def roleBase (c : NamingConfig) : Str :=
  sanitizeName (joinHyphen (filterBoolean
    [c.prefix_, some (orApp c.applicationName), c.environment,
     some (S "lambda-role"), c.suffix_]))

/-- `ResourceNamingService.generateLambdaRoleName` (`naming.ts:180-191`). -/
def generateLambdaRoleName (c : NamingConfig) : Str :=
  validateAndTruncate (roleBase c) 64

/-- `ResourceNamingService.generateApiGatewayName` (`naming.ts:196-206`). -/
def generateApiGatewayName (c : NamingConfig) : Str :=
  sanitizeName (joinHyphen (filterBoolean
    [c.prefix_, some (orApp c.applicationName), c.environment,
     some (S "api"), c.suffix_]))

/-- `ResourceNamingService.generateLambdaFunctionName` feeding
`generateLogGroupName` (`naming.ts:211-214`). -/
def generateLogGroupName (c : NamingConfig) : Str :=
  S "/aws/lambda/" ++ generateLambdaFunctionName c

/-- `ResourceNamingService.needsS3Bucket` (`naming.ts:219-221`). -/
def needsS3Bucket (config : DeploymentConfig) : Bool :=
  config.application.type = AppType.frontend ∨ config.application.type = AppType.fullstack

/-- `ResourceNamingService.needsLambda` (`naming.ts:226-228`). -/
def needsLambda (config : DeploymentConfig) : Bool :=
  config.application.type = AppType.backend ∨ config.application.type = AppType.fullstack

/-- `ResourceNamingService.needsApiGateway` (`naming.ts:233-236`): hard
`return false` — Function URLs are the default integration path. -/
def needsApiGateway (_config : DeploymentConfig) : Bool := false

/-- Value of an association list under a key (`obj[key]`; first match). -/
def tagsGet : List (Str × Str) → Str → Option Str
  | [], _ => none
  | p :: t, k => if p.1 = k then some p.2 else tagsGet t k

/-- `ResourceNamingService.extractPrefix` (`naming.ts:241-243`). -/
def extractPrefix (config : DeploymentConfig) : Option Str :=
  config.deployment.tags.bind fun t => tagsGet t (S "Prefix")

/-- `ResourceNamingService.extractSuffix` (`naming.ts:248-250`). -/
def extractSuffix (config : DeploymentConfig) : Option Str :=
  config.deployment.tags.bind fun t => tagsGet t (S "Suffix")

/-- The `NamingConfig` built by `generateResourceNames` (`naming.ts:53-59`). -/
def namingConfigOf (config : DeploymentConfig) (environment : Option Str) : NamingConfig :=
  { applicationName := config.application.name
    environment := environment
    region := config.aws.region.getD (S "us-east-1")
    prefix_ := extractPrefix config
    suffix_ := extractSuffix config }

/-- `config.deployment.stack_name || this.generateStackName(namingConfig)`
(`naming.ts:61`); an empty configured stack name is falsy. -/
def baseStackNameOf (config : DeploymentConfig) (environment : Option Str) : Str :=
  match config.deployment.stack_name with
  | some s => if s = [] then generateStackName (namingConfigOf config environment) else s
  | none => generateStackName (namingConfigOf config environment)

/-- `ResourceNamingService.generateResourceNames` (`naming.ts:52-71`);
`now` models `Date.now()` inside `generateS3BucketName`. -/
def generateResourceNames (config : DeploymentConfig) (environment : Option Str)
    (now : Nat) : ResourceNames :=
  { stackName := validateAndTruncate (baseStackNameOf config environment) 128
    s3BucketName :=
      if needsS3Bucket config then
        some (generateS3BucketName (namingConfigOf config environment) now)
      else none
    lambdaFunctionName :=
      if needsLambda config then
        some (generateLambdaFunctionName (namingConfigOf config environment))
      else none
    lambdaExecutionRoleName :=
      if needsLambda config then
        some (generateLambdaRoleName (namingConfigOf config environment))
      else none
    apiGatewayName :=
      if needsApiGateway config then
        some (generateApiGatewayName (namingConfigOf config environment))
      else none
    logGroupName :=
      if needsLambda config then
        some (generateLogGroupName (namingConfigOf config environment))
      else none }

/-- The field/value pairs of a `ResourceNames` object, in the insertion
order of the object literal built by `generateResourceNames` — the order
`Object.entries` observes in `checkNamingConflicts`. -/
def fieldEntries (r : ResourceNames) : List (Str × Option Str) :=
  [(S "stackName", some r.stackName),
   (S "s3BucketName", r.s3BucketName),
   (S "lambdaFunctionName", r.lambdaFunctionName),
   (S "lambdaExecutionRoleName", r.lambdaExecutionRoleName),
   (S "apiGatewayName", r.apiGatewayName),
   (S "logGroupName", r.logGroupName)]

/-- `ResourceNamingService.checkNamingConflicts` (`naming.ts:79-91`):
lowercase the existing names into a set, then collect
`"<field>: <name>"` for each truthy (present, non-empty) field whose
lowercased name is in that set. -/
def checkNamingConflicts (r : ResourceNames) (existingResources : List Str) : List Str :=
  (fieldEntries r).filterMap fun p =>
    match p.2 with
    | none => none
    | some name =>
      if name ≠ [] ∧ (existingResources.map jsToLowerStr).contains (jsToLowerStr name) then
        some (p.1 ++ S ": " ++ name)
      else none

/-- JS object assignment `obj[k] = v`: overwrite the entry in place when
the key exists, append otherwise. -/
def tagsInsert (m : List (Str × Str)) (k : Str) (v : Str) : List (Str × Str) :=
  if m.any (fun p => p.1 = k) then
    m.map fun p => if p.1 = k then (k, v) else p
  else m ++ [(k, v)]

/-- Key-wise merge of two string records, later (source) entries
overwriting earlier ones — the effect of `deepMerge` on a
`Record<string, string>` and of object spread. -/
def tagsMerge (base ov : List (Str × Str)) : List (Str × Str) :=
  ov.foldl (fun acc p => tagsInsert acc p.1 p.2) base

/-- `Partial` counterpart of `ApplicationConfig` for override objects. -/
structure PartialApplicationConfig where
  name : Option Str
  type : Option AppType
  version : Option Str
deriving DecidableEq, Repr

/-- `Partial` counterpart of `AWSConfig`. -/
structure PartialAWSConfig where
  region : Option Str
  profile : Option Str
deriving DecidableEq, Repr

/-- `Partial` counterpart of `DeploymentSettings`. -/
structure PartialDeploymentSettings where
  stack_name : Option Str
  tags : Option (List (Str × Str))
  enable_monitoring : Option Bool
deriving DecidableEq, Repr

/-- `Partial` counterpart of `BackendConfig`. -/
structure PartialBackendConfig where
  source_dir : Option Str
  handler : Option Str
  runtime : Option Str
  timeout : Option Nat
  memory : Option Nat
  environment_variables : Option (List (Str × Str))
deriving DecidableEq, Repr

/-- `Partial<DeploymentConfig>` as consumed by the untyped `deepMerge`:
every branch optional, nested objects themselves partial. -/
structure PartialDeploymentConfig where
  application : Option PartialApplicationConfig
  aws : Option PartialAWSConfig
  frontend : Option FrontendConfig
  backend : Option PartialBackendConfig
  deployment : Option PartialDeploymentSettings
deriving DecidableEq, Repr

/-- The empty override object `{}` (default argument of
`resolveEnvironmentConfig`). -/
def emptyOverrides : PartialDeploymentConfig :=
  { application := none, aws := none, frontend := none, backend := none,
    deployment := none }

/-- `ResourceNamingService.deepMerge` (`naming.ts:313-327`) specialised
to `DeploymentConfig`: present scalar keys of the source overwrite, and
nested objects are merged recursively (`target[key] || {}` when the
target branch is absent). -/
def deepMerge (target : DeploymentConfig) (source : PartialDeploymentConfig) :
    DeploymentConfig :=
  { application :=
      match source.application with
      | none => target.application
      | some pa =>
        { name := pa.name.getD target.application.name
          type := pa.type.getD target.application.type
          version := pa.version <|> target.application.version }
    aws :=
      match source.aws with
      | none => target.aws
      | some po =>
        { region := po.region <|> target.aws.region
          profile := po.profile <|> target.aws.profile }
    frontend :=
      match source.frontend with
      | none => target.frontend
      | some pf =>
        let b := target.frontend.getD
          { source_dir := none, index_file := none, custom_domain := none,
            build_command := none }
        some { source_dir := pf.source_dir <|> b.source_dir
               index_file := pf.index_file <|> b.index_file
               custom_domain := pf.custom_domain <|> b.custom_domain
               build_command := pf.build_command <|> b.build_command }
    backend :=
      match source.backend with
      | none => target.backend
      | some pb =>
        let b := target.backend.getD
          { source_dir := none, handler := none, runtime := none,
            timeout := none, memory := none, environment_variables := none }
        some { source_dir := pb.source_dir <|> b.source_dir
               handler := pb.handler <|> b.handler
               runtime := pb.runtime <|> b.runtime
               timeout := pb.timeout <|> b.timeout
               memory := pb.memory <|> b.memory
               environment_variables :=
                 match pb.environment_variables with
                 | none => b.environment_variables
                 | some ev => some (tagsMerge (b.environment_variables.getD []) ev) }
    deployment :=
      match source.deployment with
      | none => target.deployment
      | some pd =>
        { stack_name := pd.stack_name <|> target.deployment.stack_name
          tags :=
            match pd.tags with
            | none => target.deployment.tags
            | some t => some (tagsMerge (target.deployment.tags.getD []) t)
          enable_monitoring := pd.enable_monitoring <|> target.deployment.enable_monitoring } }

/-- The stack-name fallback step of `resolveEnvironmentConfig`
(`naming.ts:109-116`): `if (!resolvedConfig.deployment.stack_name)`
(unset or empty string is falsy) derive one with no prefix/suffix. -/
def resolveStackNamed (resolved : DeploymentConfig) (environment : Str) : DeploymentConfig :=
  if resolved.deployment.stack_name = none ∨ resolved.deployment.stack_name = some [] then
    { resolved with
      deployment :=
        { resolved.deployment with
          stack_name := some (generateStackName
            { applicationName := resolved.application.name
              environment := some environment
              region := resolved.aws.region.getD (S "us-east-1")
              prefix_ := none
              suffix_ := none }) } }
  else resolved

/-- The tag step of `resolveEnvironmentConfig` (`naming.ts:119-123`):
`tags = { Environment: environment, Application: name, ...tags }` — the
spread of the existing tags comes last. -/
def applyEnvTags (resolved : DeploymentConfig) (environment : Str) : DeploymentConfig :=
  { resolved with
    deployment :=
      { resolved.deployment with
        tags := some (tagsMerge
          [(S "Environment", environment),
           (S "Application", resolved.application.name)]
          (resolved.deployment.tags.getD [])) } }

/-- `ResourceNamingService.resolveEnvironmentConfig` (`naming.ts:100-126`). -/
def resolveEnvironmentConfig (config : DeploymentConfig) (environment : Str)
    (environmentOverrides : PartialDeploymentConfig) : DeploymentConfig :=
  applyEnvTags (resolveStackNamed (deepMerge config environmentOverrides) environment)
    environment

/-! ## The deployment orchestrator -/

/-- A CloudFormation stack output entry. -/
structure StackOutput where
  OutputKey : Str
  OutputValue : Str
deriving DecidableEq, Repr

/-- The slice of a `DescribeStacks` stack record read by the
orchestrator. -/
structure Stack where
  StackName : Str
  StackStatus : Str
  Outputs : Option (List StackOutput)
  Region : Option Str
  AccountId : Option Str
deriving DecidableEq, Repr

/-- `DeployedResource` from `src/src/types/index.ts` (the status union
is modelled as a string). -/
structure DeployedResource where
  type : Str
  name : Str
  arn : Str
  status : Str
deriving DecidableEq, Repr

/-- `Endpoint` from `src/src/types/index.ts`. -/
structure Endpoint where
  type : Str
  url : Str
  description : Str
deriving DecidableEq, Repr

/-- `DeploymentError` from `src/src/types/index.ts` (the free-form
`details` payload is dropped). -/
structure DeploymentError where
  code : Str
  message : Str
  remediation : Str
deriving DecidableEq, Repr

/-- `DeploymentMetadata`, reduced to the fields the claims inspect. -/
structure DeploymentMetadata where
  deploymentId : Str
  region : Str
  stackName : Str
deriving DecidableEq, Repr

/-- `DeploymentResult` from `src/src/types/index.ts`; `errors` is
`none` when the key is absent (success path). -/
structure DeploymentResult where
  success : Bool
  resources : List DeployedResource
  endpoints : List Endpoint
  errors : Option (List DeploymentError)
  metadata : DeploymentMetadata
deriving DecidableEq, Repr

/-- Behaviour of the external collaborators of one `deploy()` run.
Every AWS/filesystem call is a value of `Except Str α`: `.error msg`
models the call throwing with message `msg`.  `poll` gives the result of
the `i`-th `getStackIfExists` inside the wait loop and `pollDelay i` the
extra milliseconds that call took beyond the fixed 10-second sleep. -/
structure AwsEnv where
  uuid : Str
  templateResult : Except Str Str
  describe1 : Except Str (Option Stack)
  sendCreate : Except Str Unit
  sendUpdate : Except Str Unit
  poll : Nat → Except Str (Option Stack)
  pollDelay : Nat → Nat
  refetch : Except Str (Option Stack)
  s3Deploy : Except Str Unit
  lambdaUpdate : Except Str Unit

/-- `suffix.isSuffixOf s` — JS `status.endsWith(suffix)`. -/
def strEndsWith (s suffix : Str) : Bool := suffix.isSuffixOf s

/-- JS `s.includes(sub)`: some tail of `s` starts with `sub`. -/
def strContains (s sub : Str) : Bool := s.tails.any fun t => sub.isPrefixOf t

/-- `DeploymentOrchestrator.validateDeployment` (orchestrator, lines
90-109).  The application-type membership check always passes in the
typed model, since `AppType` is exactly the union. -/
def validateDeployment (config : DeploymentConfig) : Except Str Unit :=
  if config.application.name = [] then
    .error (S "Application name is required")
  else if (config.application.type = AppType.frontend ∨
           config.application.type = AppType.fullstack) ∧ config.frontend = none then
    .error (S "Frontend configuration is required for frontend/fullstack applications")
  else if (config.application.type = AppType.backend ∨
           config.application.type = AppType.fullstack) ∧ config.backend = none then
    .error (S "Backend configuration is required for backend/fullstack applications")
  else .ok ()

/-- The body of `waitForStackOperation`'s polling loop (orchestrator,
lines 226-254).  `elapsed` is `Date.now() - startTime` at the loop
condition; each iteration advances it by the 10-second sleep plus the
poll's own duration `env.pollDelay i`. -/
def waitLoop (env : AwsEnv) (stackName : Str) (maxWaitTime : Nat) (i : Nat)
    (elapsed : Nat) : Except Str Stack :=
  if _h : elapsed < maxWaitTime then
    match env.poll i with
    | .error e => .error e
    | .ok none => .error (S "Stack " ++ stackName ++ S " not found")
    | .ok (some stack) =>
      if strEndsWith stack.StackStatus (S "_COMPLETE") then
        if strContains stack.StackStatus (S "FAILED") ∨
           strContains stack.StackStatus (S "ROLLBACK") then
          .error (S "Stack operation failed with status: " ++ stack.StackStatus)
        else .ok stack
      else if strEndsWith stack.StackStatus (S "_FAILED") then
        .error (S "Stack operation failed with status: " ++ stack.StackStatus)
      else waitLoop env stackName maxWaitTime (i + 1) (elapsed + 10000 + env.pollDelay i)
  else
    .error (S "Stack operation timed out after " ++ toDecimal (maxWaitTime / 1000) ++ S " seconds")
  termination_by maxWaitTime - elapsed
  decreasing_by omega

/-- `DeploymentOrchestrator.waitForStackOperation` with its default
30-minute budget (orchestrator, line 226). -/
def waitForStackOperation (env : AwsEnv) (stackName : Str)
    (maxWaitTime : Nat := 1800000) : Except Str Stack :=
  waitLoop env stackName maxWaitTime 0 0

/-- The `try` block of `deployStack` (orchestrator, lines 119-149):
describe, then create or update, then wait. -/
def deployStackAttempt (env : AwsEnv) (stackName : Str) : Except Str (Option Stack) :=
  match env.describe1 with
  | .error e => .error e
  | .ok existingStack =>
    match (match existingStack with
           | some _ => env.sendUpdate
           | none => env.sendCreate) with
    | .error e => .error e
    | .ok _ =>
      match waitForStackOperation env stackName with
      | .error e => .error e
      | .ok stack => .ok (some stack)

/-- `DeploymentOrchestrator.deployStack` (orchestrator, lines 111-158):
the attempt plus the catch clause that reclassifies a
"No updates are to be performed" error as success by re-fetching the
stack (which may legitimately be `null`). -/
def deployStack (env : AwsEnv) (stackName : Str) : Except Str (Option Stack) :=
  match deployStackAttempt env stackName with
  | .ok s => .ok s
  | .error e =>
    if strContains e (S "No updates are to be performed") then env.refetch
    else .error e

/-- `DeploymentOrchestrator.extractBucketName` (orchestrator, lines
284-288). -/
def extractBucketName (stack : Stack) : Str :=
  jsToLowerStr (stack.StackName ++ S "-frontend-bucket")

/-- `DeploymentOrchestrator.extractFunctionName` (orchestrator, lines
290-294). -/
def extractFunctionName (stack : Stack) : Str :=
  stack.StackName ++ S "-function"

/-- The frontend half of `deployApplicationCode` (orchestrator, lines
163-172).  Dereferencing a `null` stack result throws a `TypeError`,
modelled as an `Except` error; `extractBucketName` always yields a
non-empty (truthy) string, so the inner `if (bucketName)` always runs
the upload. -/
def frontendCodeStep (env : AwsEnv) (config : DeploymentConfig)
    (stackResult : Option Stack) : Except Str Unit :=
  if (config.application.type = AppType.frontend ∨
      config.application.type = AppType.fullstack) ∧
     (config.frontend.bind (·.source_dir)).getD [] ≠ [] then
    match stackResult with
    | none => .error (S "Cannot read properties of null (reading 'StackName')")
    | some _stack => env.s3Deploy
  else .ok ()

/-- The backend half of `deployApplicationCode` (orchestrator, lines
174-183). -/
def backendCodeStep (env : AwsEnv) (config : DeploymentConfig)
    (stackResult : Option Stack) : Except Str Unit :=
  if (config.application.type = AppType.backend ∨
      config.application.type = AppType.fullstack) ∧
     (config.backend.bind (·.source_dir)).getD [] ≠ [] then
    match stackResult with
    | none => .error (S "Cannot read properties of null (reading 'StackName')")
    | some _stack => env.lambdaUpdate
  else .ok ()

/-- `DeploymentOrchestrator.deployApplicationCode` (orchestrator, lines
160-186): frontend assets first, then backend code. -/
def deployApplicationCode (env : AwsEnv) (config : DeploymentConfig)
    (stackResult : Option Stack) : Except Str Unit :=
  match frontendCodeStep env config stackResult with
  | .error e => .error e
  | .ok _ => backendCodeStep env config stackResult

/-- `DeploymentOrchestrator.verifyDeployment` (orchestrator, lines
188-211): collect website / function-URL endpoints from the stack
outputs (skipped when `Outputs` is undefined). -/
def verifyDeployment (stackResult : Option Stack) : Except Str (List Endpoint) :=
  match stackResult with
  | none => .error (S "Cannot read properties of null (reading 'Outputs')")
  | some stack =>
    .ok ((stack.Outputs.getD []).filterMap fun o =>
      if o.OutputKey = S "WebsiteURL" then
        some { type := S "website", url := o.OutputValue,
               description := S "Static website URL" }
      else if o.OutputKey = S "FunctionURL" then
        some { type := S "function_url", url := o.OutputValue,
               description := S "Lambda function URL" }
      else none)

/-- `DeploymentOrchestrator.extractResources` (orchestrator, lines
256-282); an undefined `Region`/`AccountId` interpolates as the string
`"undefined"` in the ARN template literal. -/
def extractResources (stackResult : Option Stack) : Except Str (List DeployedResource) :=
  match stackResult with
  | none => .error (S "Cannot read properties of null (reading 'Outputs')")
  | some stack =>
    .ok ((stack.Outputs.getD []).filterMap fun o =>
      if o.OutputKey = S "WebsiteURL" then
        some { type := S "S3::Bucket", name := S "Frontend Bucket",
               arn := S "arn:aws:s3:::" ++ extractBucketName stack,
               status := S "created" }
      else if o.OutputKey = S "FunctionURL" then
        some { type := S "Lambda::Function", name := S "Backend Function",
               arn := S "arn:aws:lambda:" ++ stack.Region.getD (S "undefined") ++
                 S ":" ++ stack.AccountId.getD (S "undefined") ++
                 S ":function:" ++ extractFunctionName stack,
               status := S "created" }
      else none)

/-- The stack name picked at the top of `deploy` (orchestrator, line
34): `config.deployment.stack_name || name + '-stack'`. -/
def deployStackName (config : DeploymentConfig) : Str :=
  match config.deployment.stack_name with
  | some s => if s = [] then config.application.name ++ S "-stack" else s
  | none => config.application.name ++ S "-stack"

/-- The `try` block of `deploy` (orchestrator, lines 43-68): steps 1-6
sequenced, producing the success payload. -/
def deploySteps (env : AwsEnv) (config : DeploymentConfig) :
    Except Str (List DeployedResource × List Endpoint) :=
  match validateDeployment config with
  | .error e => .error e
  | .ok _ =>
    match env.templateResult with
    | .error e => .error e
    | .ok _template =>
      match deployStack env (deployStackName config) with
      | .error e => .error e
      | .ok stackResult =>
        match deployApplicationCode env config stackResult with
        | .error e => .error e
        | .ok _ =>
          match verifyDeployment stackResult with
          | .error e => .error e
          | .ok endpoints =>
            match extractResources stackResult with
            | .error e => .error e
            | .ok resources => .ok (resources, endpoints)

/-- The `DeploymentMetadata` assembled at the top of `deploy`
(orchestrator, lines 36-41). -/
def deployMetadata (env : AwsEnv) (config : DeploymentConfig) : DeploymentMetadata :=
  { deploymentId := env.uuid
    region := config.aws.region.getD (S "us-east-1")
    stackName := deployStackName config }

/-- `DeploymentOrchestrator.deploy` (orchestrator, lines 31-88): the
whole pipeline inside a try/catch that converts any failure into a
structured `DeploymentResult`. -/
def deploy (env : AwsEnv) (config : DeploymentConfig) : DeploymentResult :=
  match deploySteps env config with
  | .ok (resources, endpoints) =>
    { success := true, resources := resources, endpoints := endpoints,
      errors := none, metadata := deployMetadata env config }
  | .error msg =>
    { success := false, resources := [], endpoints := [],
      errors := some [{ code := S "DEPLOYMENT_FAILED", message := msg,
                        remediation := S "Check AWS CloudFormation console for detailed error information" }],
      metadata := deployMetadata env config }

/-! ## Properties of the short hash and of truncation -/

theorem toInt32_lb (n : Int) : -(2 ^ 31) ≤ toInt32 n := by
  unfold toInt32
  have h0 : 0 ≤ n % (2 ^ 32 : Int) := Int.emod_nonneg n (by norm_num)
  have h1 : n % (2 ^ 32 : Int) < 2 ^ 32 := Int.emod_lt_of_pos n (by norm_num)
  split <;> omega

theorem toInt32_ub (n : Int) : toInt32 n < 2 ^ 31 := by
  unfold toInt32
  have h0 : 0 ≤ n % (2 ^ 32 : Int) := Int.emod_nonneg n (by norm_num)
  have h1 : n % (2 ^ 32 : Int) < 2 ^ 32 := Int.emod_lt_of_pos n (by norm_num)
  split <;> omega

theorem foldl_hashStep_range (l : Str) :
    ∀ h : Int, -(2 ^ 31) ≤ h → h < 2 ^ 31 →
      -(2 ^ 31) ≤ l.foldl hashStep h ∧ l.foldl hashStep h < 2 ^ 31 := by
  induction l with
  | nil => exact fun h h1 h2 => ⟨h1, h2⟩
  | cons c t ih =>
    intro h _ _
    exact ih (hashStep h c) (toInt32_lb _) (toInt32_ub _)

/-- The 32-bit rolling hash always lands in `[-2^31, 2^31)`. -/
theorem jsHash_natAbs_le (s : Str) : (jsHash s).natAbs ≤ 2 ^ 31 := by
  have := foldl_hashStep_range s 0 (by norm_num) (by norm_num)
  unfold jsHash
  omega

theorem toBase36_ne_nil (n : Nat) : toBase36 n ≠ [] := by
  rw [toBase36_eq]
  split <;> simp

theorem toBase36_length_le : ∀ n k : Nat, 1 ≤ k → n < 36 ^ k → (toBase36 n).length ≤ k := by
  intro n
  induction n using Nat.strong_induction_on with
  | _ n ih =>
    intro k hk hn
    rw [toBase36_eq]
    split
    · simpa using hk
    · rename_i h36
      obtain ⟨k', rfl⟩ : ∃ k', k = k' + 1 := ⟨k - 1, by omega⟩
      have hk' : 1 ≤ k' := by
        by_contra hc
        have hz : k' = 0 := by omega
        subst hz
        norm_num at hn
        omega
      have hdiv : n / 36 < 36 ^ k' := by
        have hp : (36 : Nat) ^ (k' + 1) = 36 ^ k' * 36 := Nat.pow_succ 36 k'
        exact Nat.div_lt_of_lt_mul (by omega)
      have := ih (n / 36) (Nat.div_lt_self (by omega) (by omega)) k' hk' hdiv
      simp only [List.length_append, List.length_cons, List.length_nil]
      omega

theorem toBase36_mem : ∀ n : Nat, ∀ c ∈ toBase36 n,
    (48 ≤ c ∧ c ≤ 57) ∨ (97 ≤ c ∧ c ≤ 122) := by
  intro n
  induction n using Nat.strong_induction_on with
  | _ n ih =>
    intro c hc
    rw [toBase36_eq] at hc
    split at hc
    · rename_i h36
      simp only [List.mem_singleton] at hc
      subst hc
      unfold base36digitCode
      split <;> omega
    · rename_i h36
      rcases List.mem_append.mp hc with h | h
      · exact ih (n / 36) (Nat.div_lt_self (by omega) (by omega)) c h
      · simp only [List.mem_singleton] at h
        subst h
        have : n % 36 < 36 := Nat.mod_lt n (by omega)
        unfold base36digitCode
        split <;> omega

/-- Since `|hash| ≤ 2^31 < 36^6` the base-36 rendering has at most six
digits, so the `substring(0, 6)` is the identity. -/
theorem generateShortHash_eq (s : Str) :
    generateShortHash s = toBase36 (jsHash s).natAbs := by
  unfold generateShortHash
  apply List.take_of_length_le
  apply toBase36_length_le _ 6 (by omega)
  have := jsHash_natAbs_le s
  omega

theorem generateShortHash_length (s : Str) :
    1 ≤ (generateShortHash s).length ∧ (generateShortHash s).length ≤ 6 := by
  constructor
  · rw [generateShortHash_eq]
    have := toBase36_ne_nil (jsHash s).natAbs
    cases h : toBase36 (jsHash s).natAbs with
    | nil => exact absurd h this
    | cons a t => simp [h]
  · unfold generateShortHash
    have := List.length_take 6 (toBase36 (jsHash s).natAbs)
    omega

theorem generateShortHash_mem (s : Str) :
    ∀ c ∈ generateShortHash s, (48 ≤ c ∧ c ≤ 57) ∨ (97 ≤ c ∧ c ≤ 122) := by
  rw [generateShortHash_eq]
  exact toBase36_mem _

theorem validateAndTruncate_of_le {name : Str} {m : Nat} (h : name.length ≤ m) :
    validateAndTruncate name m = name := by
  unfold validateAndTruncate
  simp [h]

theorem validateAndTruncate_of_gt {name : Str} {m : Nat} (h : m < name.length) :
    validateAndTruncate name m =
      name.take (m - (generateShortHash name).length - 1) ++ 45 :: generateShortHash name := by
  unfold validateAndTruncate
  simp [Nat.not_le.mpr h]

/-- Truncation enforces the limit exactly whenever the limit is at
least 7 (all AWS limits in the service are 63 or more). -/
theorem validateAndTruncate_length {name : Str} {m : Nat} (h7 : 7 ≤ m) :
    (validateAndTruncate name m).length ≤ m := by
  by_cases h : name.length ≤ m
  · rw [validateAndTruncate_of_le h]
    exact h
  · push_neg at h
    rw [validateAndTruncate_of_gt h]
    have hh := generateShortHash_length name
    simp only [List.length_append, List.length_take, List.length_cons]
    omega

theorem validateAndTruncate_idem {name : Str} {m : Nat} (h7 : 7 ≤ m) :
    validateAndTruncate (validateAndTruncate name m) m = validateAndTruncate name m :=
  validateAndTruncate_of_le (validateAndTruncate_length h7)

/-! ## Properties of `sanitizeName` -/

/-- "No consecutive hyphens": adjacent code units are never both 45. -/
def NoAdjHyphens (s : Str) : Prop :=
  List.Chain' (fun a b => ¬(a = 45 ∧ b = 45)) s

/-- Executable check for `NoAdjHyphens`. -/
def noAdjB : Str → Bool
  | [] => true
  | [_] => true
  | a :: b :: r => (!(a == 45 && b == 45)) && noAdjB (b :: r)

theorem noAdjHyphens_iff : ∀ s : Str, NoAdjHyphens s ↔ noAdjB s = true := by
  intro s
  induction s with
  | nil => simp [NoAdjHyphens, noAdjB]
  | cons a t ih =>
    cases t with
    | nil => simp [NoAdjHyphens, noAdjB]
    | cons b r =>
      rw [NoAdjHyphens, List.chain'_cons, noAdjB]
      rw [NoAdjHyphens] at ih
      simp only [Bool.and_eq_true, Bool.not_eq_true', Bool.and_eq_false_iff,
        beq_eq_false_iff_ne, ne_eq, ← ih]
      constructor
      · rintro ⟨hab, hch⟩
        refine ⟨?_, hch⟩
        by_cases ha : a = 45
        · by_cases hb : b = 45
          · exact absurd ⟨ha, hb⟩ hab
          · simp [hb]
        · simp [ha]
      · rintro ⟨hab, hch⟩
        refine ⟨?_, hch⟩
        rintro ⟨rfl, rfl⟩
        rcases hab with h | h <;> simp at h

/-- A well-formed AWS name: non-empty, drawn from `[A-Za-z0-9-]`, and
starting with a letter. -/
def GoodName (s : Str) : Prop :=
  s ≠ [] ∧ (∀ c ∈ s, isAllowedCode c = true) ∧ isLetterCode (s.headD 0) = true

instance : DecidablePred GoodName := fun s =>
  inferInstanceAs (Decidable (s ≠ [] ∧ (∀ c ∈ s, isAllowedCode c = true) ∧
    isLetterCode (s.headD 0) = true))


theorem sanitizeStep1_allowed (n : Str) : ∀ c ∈ sanitizeStep1 n, isAllowedCode c = true := by
  intro c hc
  unfold sanitizeStep1 at hc
  obtain ⟨a, _, rfl⟩ := List.mem_map.mp hc
  split
  · assumption
  · decide

theorem collapseHyphens_head? : ∀ (l : Str) (a : Nat),
    (collapseHyphens (a :: l)).head? = some a := by
  intro l
  induction l with
  | nil => intro a; rfl
  | cons b r ih =>
    intro a
    rw [collapseHyphens]
    split
    · rename_i hab
      rw [ih b, hab.1, hab.2]
    · simp

theorem collapseHyphens_subset : ∀ l : Str, collapseHyphens l ⊆ l := by
  intro l
  induction l with
  | nil => simp [collapseHyphens]
  | cons a t ih =>
    cases t with
    | nil => simp [collapseHyphens]
    | cons b r =>
      rw [collapseHyphens]
      split
      · exact fun c hc => List.mem_cons_of_mem a (ih hc)
      · intro c hc
        rcases List.mem_cons.mp hc with h | h
        · exact h ▸ List.mem_cons_self a _
        · exact List.mem_cons_of_mem a (ih h)

theorem collapseHyphens_noAdj : ∀ l : Str, NoAdjHyphens (collapseHyphens l) := by
  intro l
  induction l with
  | nil => exact List.chain'_nil
  | cons a t ih =>
    cases t with
    | nil => exact List.chain'_singleton a
    | cons b r =>
      rw [collapseHyphens]
      split
      · exact ih
      · rename_i hab
        rw [NoAdjHyphens, List.chain'_cons']
        refine ⟨?_, ih⟩
        intro y hy
        rw [collapseHyphens_head? r b] at hy
        simp only [Option.mem_def, Option.some.injEq] at hy
        subst hy
        exact hab

theorem NoAdjHyphens.of_suffix {l₁ l₂ : Str} (h : l₁ <:+ l₂) (hl : NoAdjHyphens l₂) :
    NoAdjHyphens l₁ := by
  obtain ⟨t, rfl⟩ := h
  exact (List.chain'_append.mp hl).2.1

theorem NoAdjHyphens.of_prefix {l₁ l₂ : Str} (h : l₁ <+: l₂) (hl : NoAdjHyphens l₂) :
    NoAdjHyphens l₁ := by
  obtain ⟨t, rfl⟩ := h
  exact (List.chain'_append.mp hl).1

theorem NoAdjHyphens.reverse {l : Str} (hl : NoAdjHyphens l) :
    NoAdjHyphens l.reverse := by
  rw [NoAdjHyphens, List.chain'_reverse]
  exact hl.imp fun a b hab => fun ⟨h1, h2⟩ => hab ⟨h2, h1⟩

theorem head?_dropWhile_not_hyphen : ∀ (l : Str) (c : Nat),
    (l.dropWhile (· = 45)).head? = some c → c ≠ 45 := by
  intro l
  induction l with
  | nil => intro c hc; simp [List.dropWhile] at hc
  | cons a t ih =>
    intro c hc
    rw [List.dropWhile] at hc
    split at hc
    · exact ih c hc
    · rename_i ha
      simp only [List.head?_cons, Option.some.injEq] at hc
      subst hc
      simpa using ha

/-- `trimHyphens` is a prefix of the leading-trimmed string, hence its
head (when present) is not a hyphen. -/
theorem trimHyphens_prefixOf (s : Str) : trimHyphens s <+: s.dropWhile (· = 45) := by
  unfold trimHyphens
  have h := List.dropWhile_suffix (l := (s.dropWhile (· = 45)).reverse) (· = 45)
  have := List.reverse_prefix.mpr h
  simpa using this

theorem trimHyphens_head_ne_hyphen {s : Str} {c : Nat}
    (h : (trimHyphens s).head? = some c) : c ≠ 45 := by
  obtain ⟨t, ht⟩ := trimHyphens_prefixOf s
  apply head?_dropWhile_not_hyphen s c
  rw [← ht]
  rwa [List.head?_append_of_ne_nil]
  intro hnil
  rw [hnil] at h
  simp at h

theorem trimHyphens_subset (s : Str) : trimHyphens s ⊆ s := by
  intro c hc
  have h1 := (trimHyphens_prefixOf s).subset hc
  exact (List.dropWhile_suffix (· = 45)).subset h1

theorem trimHyphens_noAdj {s : Str} (hs : NoAdjHyphens s) : NoAdjHyphens (trimHyphens s) := by
  apply NoAdjHyphens.of_prefix (trimHyphens_prefixOf s)
  exact NoAdjHyphens.of_suffix (List.dropWhile_suffix (· = 45)) hs

theorem sanitizeTrimmed_allowed (n : Str) :
    ∀ c ∈ sanitizeTrimmed n, isAllowedCode c = true := fun c hc =>
  sanitizeStep1_allowed n c
    (collapseHyphens_subset _ (trimHyphens_subset _ hc))

theorem sanitizeTrimmed_noAdj (n : Str) : NoAdjHyphens (sanitizeTrimmed n) :=
  trimHyphens_noAdj (collapseHyphens_noAdj _)

theorem sanitizeTrimmed_head_ne_hyphen {n : Str} {c : Nat}
    (h : (sanitizeTrimmed n).head? = some c) : c ≠ 45 :=
  trimHyphens_head_ne_hyphen h

/-- The sanitized name is non-empty, uses only `[A-Za-z0-9-]`, starts
with a letter, and has no run of consecutive hyphens. -/
theorem sanitizeName_good (n : Str) :
    GoodName (sanitizeName n) ∧ NoAdjHyphens (sanitizeName n) := by
  have hallow := sanitizeTrimmed_allowed n
  have hnoadj := sanitizeTrimmed_noAdj n
  have hhead : ∀ c, (sanitizeTrimmed n).head? = some c → c ≠ 45 :=
    fun c hc => sanitizeTrimmed_head_ne_hyphen hc
  unfold sanitizeName sanitizePrefixed
  by_cases hnil : sanitizeTrimmed n = []
  · rw [hnil]
    norm_num
    constructor
    · show GoodName (S "app")
      decide
    · show NoAdjHyphens (S "app")
      rw [noAdjHyphens_iff]
      decide
  · by_cases hl : isLetterCode ((sanitizeTrimmed n).headD 0) = true
    · have h1 : ¬(sanitizeTrimmed n ≠ [] ∧
          isLetterCode ((sanitizeTrimmed n).headD 0) = false) := by
        rw [hl]; simp
      rw [if_neg h1, if_neg hnil]
      exact ⟨⟨hnil, hallow, hl⟩, hnoadj⟩
    · have h1 : sanitizeTrimmed n ≠ [] ∧
          isLetterCode ((sanitizeTrimmed n).headD 0) = false := by
        simp only [Bool.not_eq_true] at hl
        exact ⟨hnil, hl⟩
      rw [if_pos h1]
      have happ : S "app-" ++ sanitizeTrimmed n ≠ [] := by simp [S]
      rw [if_neg happ]
      refine ⟨⟨happ, ?_, ?_⟩, ?_⟩
      · intro c' hc'
        rcases List.mem_append.mp hc' with h | h
        · rw [show S "app-" = [97, 112, 112, 45] from rfl] at h
          simp only [List.mem_cons, List.not_mem_nil, or_false] at h
          rcases h with rfl | rfl | rfl | rfl <;> decide
        · exact hallow c' h
      · rfl
      · rw [NoAdjHyphens, List.chain'_append]
        refine ⟨?_, hnoadj, ?_⟩
        · rw [← NoAdjHyphens, noAdjHyphens_iff]
          decide
        · intro x hx y hy
          have : y ≠ 45 := hhead y hy
          exact fun ⟨_, h2⟩ => this h2

/-! ## Lowercasing and truncation preserve well-formedness -/

theorem jsToLower_allowed {c : Nat} (h : isAllowedCode c = true) :
    isAllowedCode (jsToLower c) = true := by
  simp only [isAllowedCode, jsToLower, Bool.or_eq_true, decide_eq_true_eq] at *
  split <;> omega

theorem jsToLower_letter {c : Nat} (h : isLetterCode c = true) :
    isLetterCode (jsToLower c) = true := by
  simp only [isLetterCode, jsToLower, Bool.or_eq_true, decide_eq_true_eq] at *
  split <;> omega

theorem jsToLower_eq_45 {c : Nat} : jsToLower c = 45 ↔ c = 45 := by
  unfold jsToLower
  split <;> omega

theorem jsToLowerStr_goodName {s : Str} (h : GoodName s) : GoodName (jsToLowerStr s) := by
  obtain ⟨hne, hmem, hhead⟩ := h
  obtain ⟨c, t, rfl⟩ := List.exists_cons_of_ne_nil hne
  refine ⟨by simp [jsToLowerStr], ?_, ?_⟩
  · intro c' hc'
    obtain ⟨a, ha, rfl⟩ := List.mem_map.mp hc'
    exact jsToLower_allowed (hmem a ha)
  · simpa [jsToLowerStr] using jsToLower_letter hhead

theorem jsToLowerStr_noAdj {s : Str} (h : NoAdjHyphens s) : NoAdjHyphens (jsToLowerStr s) := by
  rw [NoAdjHyphens, jsToLowerStr, List.chain'_map]
  exact h.imp fun a b hab ⟨h1, h2⟩ =>
    hab ⟨jsToLower_eq_45.mp h1, jsToLower_eq_45.mp h2⟩

theorem validateAndTruncate_goodName {name : Str} {m : Nat} (h8 : 8 ≤ m)
    (hg : GoodName name) : GoodName (validateAndTruncate name m) := by
  by_cases h : name.length ≤ m
  · rwa [validateAndTruncate_of_le h]
  · push_neg at h
    rw [validateAndTruncate_of_gt h]
    obtain ⟨hne, hmem, hhead⟩ := hg
    obtain ⟨c, t, rfl⟩ := List.exists_cons_of_ne_nil hne
    have hh := generateShortHash_length (c :: t)
    have hk : 1 ≤ m - (generateShortHash (c :: t)).length - 1 := by omega
    obtain ⟨k', hk'⟩ : ∃ k', m - (generateShortHash (c :: t)).length - 1 = k' + 1 :=
      ⟨m - (generateShortHash (c :: t)).length - 2, by omega⟩
    rw [hk', List.take_cons]
    refine ⟨by simp, ?_, ?_⟩
    · intro c' hc'
      rcases List.mem_append.mp hc' with hin | hin
      · rcases List.mem_cons.mp hin with rfl | hin
        · exact hmem c' (List.mem_cons_self _ _)
        · exact hmem c' (List.mem_cons_of_mem c (List.take_subset _ _ hin))
      · rcases List.mem_cons.mp hin with rfl | hin
        · decide
        · rcases generateShortHash_mem _ c' hin with hr | hr <;>
            · simp only [isAllowedCode, Bool.or_eq_true, decide_eq_true_eq]
              omega
    · simpa using hhead
    omega

/-! ## Claim C1: length limits and the truncation suffix -/

/-- The pre-truncation stack name: the configured `stack_name` when
present and non-empty, otherwise the sanitized joined parts that
`generateStackName` truncates. -/
def stackNamePre (config : DeploymentConfig) (environment : Option Str) : Str :=
  match config.deployment.stack_name with
  | some s =>
    if s = [] then sanitizeName (stackParts (namingConfigOf config environment)) else s
  | none => sanitizeName (stackParts (namingConfigOf config environment))

/-- The truncation behaviour asserted by the (amended) spec: `result`
is the source's validate-and-truncate of `base`, and when `base`
overflows the limit, the result keeps `m − len(hash) − 1` leading
characters of `base` and ends in `-` followed by the base-36 hash of
`base`, whose length is between 1 and 6. -/
def TruncShape (base : Str) (m : Nat) (result : Str) : Prop :=
  result = validateAndTruncate base m ∧
  (m < base.length →
    1 ≤ (generateShortHash base).length ∧ (generateShortHash base).length ≤ 6 ∧
    result = base.take (m - (generateShortHash base).length - 1) ++
      45 :: generateShortHash base)

theorem truncShape_of (base : Str) (m : Nat) :
    TruncShape base m (validateAndTruncate base m) := by
  refine ⟨rfl, fun hgt => ?_⟩
  have hh := generateShortHash_length base
  exact ⟨hh.1, hh.2, validateAndTruncate_of_gt hgt⟩

theorem stackName_eq_truncate_pre (config : DeploymentConfig) (environment : Option Str)
    (now : Nat) : (generateResourceNames config environment now).stackName =
      validateAndTruncate (stackNamePre config environment) 128 := by
  show validateAndTruncate (baseStackNameOf config environment) 128 = _
  unfold baseStackNameOf stackNamePre
  cases hsn : config.deployment.stack_name with
  | none => exact validateAndTruncate_idem (by omega)
  | some s =>
    dsimp only
    by_cases hs : s = []
    · rw [if_pos hs, if_pos hs]
      exact validateAndTruncate_idem (by omega)
    · rw [if_neg hs, if_neg hs]

theorem s3BucketName_eq {config : DeploymentConfig} {environment : Option Str}
    {now : Nat} {s : Str}
    (hs : (generateResourceNames config environment now).s3BucketName = some s) :
    s = validateAndTruncate (s3Base (namingConfigOf config environment) now) 63 := by
  replace hs : (if needsS3Bucket config then
      some (generateS3BucketName (namingConfigOf config environment) now)
    else none) = some s := hs
  split at hs
  · exact (Option.some.inj hs).symm
  · cases hs

theorem lambdaFunctionName_eq {config : DeploymentConfig} {environment : Option Str}
    {now : Nat} {s : Str}
    (hs : (generateResourceNames config environment now).lambdaFunctionName = some s) :
    s = validateAndTruncate (lambdaBase (namingConfigOf config environment)) 64 := by
  replace hs : (if needsLambda config then
      some (generateLambdaFunctionName (namingConfigOf config environment))
    else none) = some s := hs
  split at hs
  · exact (Option.some.inj hs).symm
  · cases hs

theorem lambdaRoleName_eq {config : DeploymentConfig} {environment : Option Str}
    {now : Nat} {s : Str}
    (hs : (generateResourceNames config environment now).lambdaExecutionRoleName = some s) :
    s = validateAndTruncate (roleBase (namingConfigOf config environment)) 64 := by
  replace hs : (if needsLambda config then
      some (generateLambdaRoleName (namingConfigOf config environment))
    else none) = some s := hs
  split at hs
  · exact (Option.some.inj hs).symm
  · cases hs

theorem logGroupName_eq {config : DeploymentConfig} {environment : Option Str}
    {now : Nat} {s : Str}
    (hs : (generateResourceNames config environment now).logGroupName = some s) :
    s = S "/aws/lambda/" ++
      validateAndTruncate (lambdaBase (namingConfigOf config environment)) 64 := by
  replace hs : (if needsLambda config then
      some (generateLogGroupName (namingConfigOf config environment))
    else none) = some s := hs
  split at hs
  · exact (Option.some.inj hs).symm
  · cases hs

/-- C1 (amended): every generated name obeys its resource-class length
limit, and each of the four truncating fields has the truncation shape
`base.take (limit − len(hash) − 1) ++ "-" ++ hash` with a base-36 hash
of between one and six characters (not always exactly six). -/
theorem C1_name_limits (config : DeploymentConfig) (environment : Option Str) (now : Nat) :
    ((generateResourceNames config environment now).stackName.length ≤ 128 ∧
     (∀ s, (generateResourceNames config environment now).s3BucketName = some s →
        s.length ≤ 63) ∧
     (∀ s, (generateResourceNames config environment now).lambdaFunctionName = some s →
        s.length ≤ 64) ∧
     (∀ s, (generateResourceNames config environment now).lambdaExecutionRoleName = some s →
        s.length ≤ 64)) ∧
    (TruncShape (stackNamePre config environment) 128
       (generateResourceNames config environment now).stackName ∧
     (∀ s, (generateResourceNames config environment now).s3BucketName = some s →
        TruncShape (s3Base (namingConfigOf config environment) now) 63 s) ∧
     (∀ s, (generateResourceNames config environment now).lambdaFunctionName = some s →
        TruncShape (lambdaBase (namingConfigOf config environment)) 64 s) ∧
     (∀ s, (generateResourceNames config environment now).lambdaExecutionRoleName = some s →
        TruncShape (roleBase (namingConfigOf config environment)) 64 s)) := by
  have hstack := stackName_eq_truncate_pre config environment now
  refine ⟨⟨?_, ?_, ?_, ?_⟩, ?_, ?_, ?_, ?_⟩
  · rw [hstack]
    exact validateAndTruncate_length (by omega)
  · intro s hs
    rw [s3BucketName_eq hs]
    exact validateAndTruncate_length (by omega)
  · intro s hs
    rw [lambdaFunctionName_eq hs]
    exact validateAndTruncate_length (by omega)
  · intro s hs
    rw [lambdaRoleName_eq hs]
    exact validateAndTruncate_length (by omega)
  · rw [hstack]
    exact truncShape_of _ _
  · intro s hs
    rw [s3BucketName_eq hs]
    exact truncShape_of _ _
  · intro s hs
    rw [lambdaFunctionName_eq hs]
    exact truncShape_of _ _
  · intro s hs
    rw [lambdaRoleName_eq hs]
    exact truncShape_of _ _

/-- A 129-character configured stack name whose 32-bit rolling hash is
`5287602`, which has only five base-36 digits (`35bxu`). -/
def c1StackName : Str := List.replicate 121 97 ++ S "arrtztko"

def c1Config : DeploymentConfig :=
  { application := { name := S "app", type := AppType.backend, version := none }
    aws := { region := none, profile := none }
    frontend := none
    backend := none
    deployment := { stack_name := some c1StackName, tags := none,
                    enable_monitoring := none } }

/-- The 32-bit rolling hash of `c1StackName`, evaluated in chunks of
twenty characters (kernel evaluation of the whole 129-character fold in
one step exceeds the default recursion depth). -/
theorem c1_hash : jsHash c1StackName = 5287602 := by
  have e : c1StackName = List.replicate 20 97 ++ (List.replicate 20 97 ++
      (List.replicate 20 97 ++ (List.replicate 20 97 ++ (List.replicate 20 97 ++
      (List.replicate 20 97 ++ (List.replicate 1 97 ++ S "arrtztko")))))) := by decide
  rw [jsHash, e, List.foldl_append, List.foldl_append, List.foldl_append,
    List.foldl_append, List.foldl_append, List.foldl_append, List.foldl_append]
  rw [show List.foldl hashStep (0 : Int) (List.replicate 20 97) = 1542361408 from by decide]
  rw [show List.foldl hashStep (1542361408 : Int) (List.replicate 20 97) = 1042809472 from by decide]
  rw [show List.foldl hashStep (1042809472 : Int) (List.replicate 20 97) = 1954304960 from by decide]
  rw [show List.foldl hashStep (1954304960 : Int) (List.replicate 20 97) = -994343680 from by decide]
  rw [show List.foldl hashStep (-994343680 : Int) (List.replicate 20 97) = -323643840 from by decide]
  rw [show List.foldl hashStep (-323643840 : Int) (List.replicate 20 97) = -1573222528 from by decide]
  rw [show List.foldl hashStep (-1573222528 : Int) (List.replicate 1 97) = -1525258015 from by decide]
  decide

theorem c1_shortHash : generateShortHash c1StackName = S "35bxu" := by
  rw [generateShortHash_eq, c1_hash]
  decide

theorem c1_stackName : (generateResourceNames c1Config none 0).stackName =
    List.replicate 122 97 ++ 45 :: S "35bxu" := by
  have hbase : baseStackNameOf c1Config none = c1StackName := by decide
  show validateAndTruncate (baseStackNameOf c1Config none) 128 = _
  rw [hbase, validateAndTruncate_of_gt (by decide : 128 < c1StackName.length), c1_shortHash]
  decide

/-- C1 counterexample: this overlong stack name is truncated, but the
result does **not** keep `128 − 7` leading characters followed by `-`
and a 6-character hash — the hash here has only five digits, so 122
characters are kept. -/
theorem C1_counterexample :
    128 < c1StackName.length ∧
    ¬ ∃ h : Str, h.length = 6 ∧
        (generateResourceNames c1Config none 0).stackName =
          c1StackName.take (128 - 7) ++ 45 :: h := by
  refine ⟨by decide, ?_⟩
  rintro ⟨h, hlen, heq⟩
  rw [c1_stackName] at heq
  have h97 : (List.replicate 122 97 ++ 45 :: S "35bxu")[121]? = some 97 := by decide
  rw [heq] at h97
  rw [List.getElem?_append_right (by decide)] at h97
  rw [show 121 - (c1StackName.take (128 - 7)).length = 0 from by decide] at h97
  simp at h97

theorem C1_witness :
    (generateResourceNames c1Config none 0).stackName.length ≤ 128 ∧
    (1 ≤ (generateShortHash (stackNamePre c1Config none)).length ∧
     (generateShortHash (stackNamePre c1Config none)).length ≤ 6 ∧
     (generateResourceNames c1Config none 0).stackName =
       (stackNamePre c1Config none).take
           (128 - (generateShortHash (stackNamePre c1Config none)).length - 1) ++
         45 :: generateShortHash (stackNamePre c1Config none)) := by
  have h := C1_name_limits c1Config none 0
  obtain ⟨hshape, himp⟩ : TruncShape (stackNamePre c1Config none) 128
      (generateResourceNames c1Config none 0).stackName := h.2.1
  exact ⟨h.1.1, himp (by decide)⟩

/-! ## Claim C2: output alphabet, leading letter, hyphen runs -/

def c2Config : DeploymentConfig :=
  { application := { name := S "my-app", type := AppType.backend, version := none }
    aws := { region := none, profile := none }
    frontend := none
    backend := none
    deployment := { stack_name := none, tags := none, enable_monitoring := none } }

/-- C2 counterexample: for a plain backend application the generated
`logGroupName` is `/aws/lambda/my-app-lambda`, which contains `/`
(outside `[A-Za-z0-9-]`) and does not start with a letter. -/
theorem C2_counterexample :
    (generateResourceNames c2Config none 0).logGroupName =
      some (S "/aws/lambda/my-app-lambda") ∧
    ¬ (∀ c ∈ S "/aws/lambda/my-app-lambda", isAllowedCode c = true) ∧
    isLetterCode ((S "/aws/lambda/my-app-lambda").headD 0) = false := by
  refine ⟨by decide, by decide, by decide⟩

/-- C2 (amended): the names that go through the sanitize pipeline
(`stackName` when no explicit `stack_name` is configured,
`s3BucketName`, `lambdaFunctionName`, `lambdaExecutionRoleName`) use
only `[A-Za-z0-9-]` and start with a letter; they moreover contain no
consecutive hyphens whenever no truncation was needed.  `logGroupName`
is the Lambda name under the `/aws/lambda/` prefix and a caller-supplied
`stack_name` bypasses sanitization. -/
theorem C2_sanitized_names (config : DeploymentConfig) (environment : Option Str) (now : Nat) :
    ((config.deployment.stack_name = none ∨ config.deployment.stack_name = some []) →
      GoodName (generateResourceNames config environment now).stackName ∧
      ((stackNamePre config environment).length ≤ 128 →
        NoAdjHyphens (generateResourceNames config environment now).stackName)) ∧
    (∀ s, (generateResourceNames config environment now).s3BucketName = some s →
      GoodName s ∧
      ((s3Base (namingConfigOf config environment) now).length ≤ 63 → NoAdjHyphens s)) ∧
    (∀ s, (generateResourceNames config environment now).lambdaFunctionName = some s →
      GoodName s ∧
      ((lambdaBase (namingConfigOf config environment)).length ≤ 64 → NoAdjHyphens s)) ∧
    (∀ s, (generateResourceNames config environment now).lambdaExecutionRoleName = some s →
      GoodName s ∧
      ((roleBase (namingConfigOf config environment)).length ≤ 64 → NoAdjHyphens s)) ∧
    (∀ s, (generateResourceNames config environment now).logGroupName = some s →
      s = S "/aws/lambda/" ++
        validateAndTruncate (lambdaBase (namingConfigOf config environment)) 64) := by
  refine ⟨?_, ?_, ?_, ?_, fun s hs => logGroupName_eq hs⟩
  · intro hnone
    have hpre : stackNamePre config environment =
        sanitizeName (stackParts (namingConfigOf config environment)) := by
      unfold stackNamePre
      rcases hnone with h | h
      · rw [h]
      · rw [h]
        rfl
    have hstack := stackName_eq_truncate_pre config environment now
    constructor
    · rw [hstack, hpre]
      exact validateAndTruncate_goodName (by omega) (sanitizeName_good _).1
    · intro hlen
      rw [hstack, validateAndTruncate_of_le hlen, hpre]
      exact (sanitizeName_good _).2
  · intro s hs
    rw [s3BucketName_eq hs]
    constructor
    · exact validateAndTruncate_goodName (by omega)
        (jsToLowerStr_goodName (sanitizeName_good _).1)
    · intro hlen
      rw [validateAndTruncate_of_le hlen]
      exact jsToLowerStr_noAdj (sanitizeName_good _).2
  · intro s hs
    rw [lambdaFunctionName_eq hs]
    constructor
    · exact validateAndTruncate_goodName (by omega) (sanitizeName_good _).1
    · intro hlen
      rw [validateAndTruncate_of_le hlen]
      exact (sanitizeName_good _).2
  · intro s hs
    rw [lambdaRoleName_eq hs]
    constructor
    · exact validateAndTruncate_goodName (by omega) (sanitizeName_good _).1
    · intro hlen
      rw [validateAndTruncate_of_le hlen]
      exact (sanitizeName_good _).2

def c2wConfig : DeploymentConfig :=
  { application := { name := S "My App", type := AppType.fullstack, version := none }
    aws := { region := none, profile := none }
    frontend := none
    backend := none
    deployment := { stack_name := none, tags := none, enable_monitoring := none } }

theorem C2_witness :
    GoodName (generateResourceNames c2wConfig none 0).stackName ∧
    NoAdjHyphens (generateResourceNames c2wConfig none 0).stackName ∧
    GoodName ((generateResourceNames c2wConfig none 0).s3BucketName.getD []) ∧
    NoAdjHyphens ((generateResourceNames c2wConfig none 0).s3BucketName.getD []) ∧
    GoodName ((generateResourceNames c2wConfig none 0).lambdaFunctionName.getD []) ∧
    GoodName ((generateResourceNames c2wConfig none 0).lambdaExecutionRoleName.getD []) ∧
    (generateResourceNames c2wConfig none 0).logGroupName.getD [] =
      S "/aws/lambda/" ++ validateAndTruncate (lambdaBase (namingConfigOf c2wConfig none)) 64 := by
  have h := C2_sanitized_names c2wConfig none 0
  have hs3 : (generateResourceNames c2wConfig none 0).s3BucketName =
      some ((generateResourceNames c2wConfig none 0).s3BucketName.getD []) := by decide
  have hfn : (generateResourceNames c2wConfig none 0).lambdaFunctionName =
      some ((generateResourceNames c2wConfig none 0).lambdaFunctionName.getD []) := by decide
  have hrl : (generateResourceNames c2wConfig none 0).lambdaExecutionRoleName =
      some ((generateResourceNames c2wConfig none 0).lambdaExecutionRoleName.getD []) := by decide
  have hlg : (generateResourceNames c2wConfig none 0).logGroupName =
      some ((generateResourceNames c2wConfig none 0).logGroupName.getD []) := by decide
  refine ⟨(h.1 (Or.inl rfl)).1, (h.1 (Or.inl rfl)).2 (by decide),
    (h.2.1 _ hs3).1, (h.2.1 _ hs3).2 (by decide),
    (h.2.2.1 _ hfn).1, (h.2.2.2.1 _ hrl).1, h.2.2.2.2 _ hlg⟩

/-! ## Claim C3: resource gating by application type -/

/-- C3: `s3BucketName` is present exactly for frontend/fullstack,
`lambdaFunctionName` exactly for backend/fullstack, and
`apiGatewayName` is never produced. -/
theorem C3_resource_gating (config : DeploymentConfig) (environment : Option Str) (now : Nat) :
    (generateResourceNames config environment now).apiGatewayName = none ∧
    (match config.application.type with
     | AppType.frontend =>
        (generateResourceNames config environment now).s3BucketName.isSome = true ∧
        (generateResourceNames config environment now).lambdaFunctionName = none
     | AppType.backend =>
        (generateResourceNames config environment now).lambdaFunctionName.isSome = true ∧
        (generateResourceNames config environment now).s3BucketName = none
     | AppType.fullstack =>
        (generateResourceNames config environment now).s3BucketName.isSome = true ∧
        (generateResourceNames config environment now).lambdaFunctionName.isSome = true) := by
  constructor
  · simp [generateResourceNames, needsApiGateway]
  · cases h : config.application.type <;>
      simp [generateResourceNames, needsS3Bucket, needsLambda, h]

/-! ## Claim C10: log group name and Lambda name agree -/

/-- C10: for backend/fullstack applications the returned `logGroupName`
is exactly `/aws/lambda/` followed by the returned
`lambdaFunctionName`. -/
theorem C10_logGroup_relation (config : DeploymentConfig) (environment : Option Str)
    (now : Nat) :
    (config.application.type = AppType.backend ∨
     config.application.type = AppType.fullstack) →
    ∃ fn, (generateResourceNames config environment now).lambdaFunctionName = some fn ∧
      (generateResourceNames config environment now).logGroupName =
        some (S "/aws/lambda/" ++ fn) := by
  intro h
  have hl : needsLambda config = true := by
    unfold needsLambda
    rcases h with h | h <;> simp [h]
  refine ⟨generateLambdaFunctionName (namingConfigOf config environment), ?_, ?_⟩
  · show (if needsLambda config then
        some (generateLambdaFunctionName (namingConfigOf config environment))
      else none) = _
    rw [hl]
    simp
  · show (if needsLambda config then
        some (generateLogGroupName (namingConfigOf config environment))
      else none) = _
    rw [hl]
    simp
    rfl

theorem C10_witness :
    ∃ fn, (generateResourceNames c2Config none 0).lambdaFunctionName = some fn ∧
      (generateResourceNames c2Config none 0).logGroupName =
        some (S "/aws/lambda/" ++ fn) :=
  C10_logGroup_relation c2Config none 0 (Or.inl rfl)

/-! ## Claim C4: tag precedence in `resolveEnvironmentConfig` -/

/-- Value of an association list under a key, last match winning — the
lookup a JS object built by repeated assignment realises.  For tag
records (unique keys) it coincides with `tagsGet`. -/
def lastGet (m : List (Str × Str)) (k : Str) : Option Str := tagsGet m.reverse k

theorem tagsGet_append : ∀ (l₁ l₂ : List (Str × Str)) (k : Str),
    tagsGet (l₁ ++ l₂) k = (tagsGet l₁ k).or (tagsGet l₂ k) := by
  intro l₁
  induction l₁ with
  | nil => intro l₂ k; simp [tagsGet]
  | cons p t ih =>
    intro l₂ k
    rw [List.cons_append, tagsGet, tagsGet]
    by_cases hp : p.1 = k
    · rw [if_pos hp, if_pos hp]
      rfl
    · rw [if_neg hp, if_neg hp, ih]

theorem tagsGet_map_overwrite (k : Str) (v : Str) : ∀ (m : List (Str × Str)) (k' : Str),
    tagsGet (m.map fun p => if p.1 = k then (k, v) else p) k' =
      if k' = k then (tagsGet m k).map (fun _ => v) else tagsGet m k' := by
  intro m
  induction m with
  | nil =>
    intro k'
    by_cases h : k' = k <;> simp [h, tagsGet]
  | cons p t ih =>
    intro k'
    by_cases hp : p.1 = k <;> by_cases hk : k' = k <;> by_cases hpk : p.1 = k' <;>
      simp_all [tagsGet]

theorem tagsGet_isSome_of_any {m : List (Str × Str)} {k : Str}
    (h : m.any (fun p => p.1 = k) = true) : (tagsGet m k).isSome = true := by
  induction m with
  | nil => simp at h
  | cons p t ih =>
    rw [List.any_cons, Bool.or_eq_true] at h
    rw [tagsGet]
    by_cases hp : p.1 = k
    · rw [if_pos hp]
      rfl
    · rw [if_neg hp]
      rcases h with h | h
      · exact absurd (of_decide_eq_true h) hp
      · exact ih h

theorem tagsGet_none_of_not_any {m : List (Str × Str)} {k : Str}
    (h : ¬ m.any (fun p => p.1 = k) = true) : tagsGet m k = none := by
  induction m with
  | nil => rfl
  | cons p t ih =>
    rw [List.any_cons, Bool.or_eq_true] at h
    push_neg at h
    rw [tagsGet, if_neg (fun hp => h.1 (decide_eq_true hp))]
    exact ih h.2

/-- JS object assignment: the inserted key reads back as the new value,
all other keys are untouched. -/
theorem tagsGet_insert (m : List (Str × Str)) (k v k' : Str) :
    tagsGet (tagsInsert m k v) k' = if k' = k then some v else tagsGet m k' := by
  unfold tagsInsert
  by_cases hA : m.any (fun p => p.1 = k) = true
  · rw [if_pos hA, tagsGet_map_overwrite]
    by_cases hk : k' = k
    · rw [if_pos hk, if_pos hk]
      obtain ⟨w, hw⟩ := Option.isSome_iff_exists.mp (tagsGet_isSome_of_any hA)
      rw [hw]
      rfl
    · rw [if_neg hk, if_neg hk]
  · rw [if_neg hA, tagsGet_append]
    by_cases hk : k' = k
    · subst hk
      rw [tagsGet_none_of_not_any hA, Option.none_or, if_pos rfl]
      simp [tagsGet]
    · rw [if_neg hk]
      rw [show tagsGet [(k, v)] k' = none from by
        rw [tagsGet, if_neg (fun h : k = k' => hk h.symm)]
        rfl]
      rw [Option.or_none]

/-- Spreading `ov` over `base` reads back as: the **last** occurrence in
`ov` wins, else fall through to `base`. -/
theorem tagsGet_merge : ∀ (ov base : List (Str × Str)) (k : Str),
    tagsGet (tagsMerge base ov) k = (lastGet ov k).or (tagsGet base k) := by
  intro ov
  induction ov with
  | nil =>
    intro base k
    simp [tagsMerge, lastGet, tagsGet]
  | cons p t ih =>
    intro base k
    show tagsGet (tagsMerge (tagsInsert base p.1 p.2) t) k = _
    rw [ih, tagsGet_insert]
    have hl : lastGet (p :: t) k = (lastGet t k).or (if p.1 = k then some p.2 else none) := by
      unfold lastGet
      rw [List.reverse_cons, tagsGet_append]
      rw [show tagsGet [p] k = if p.1 = k then some p.2 else none from rfl]
    rw [hl]
    cases lastGet t k with
    | some w => rfl
    | none =>
      rw [Option.none_or, Option.none_or]
      by_cases hk : p.1 = k
      · rw [if_pos hk.symm, if_pos hk]
        rfl
      · rw [if_neg (fun h : k = p.1 => hk h.symm), if_neg hk, Option.none_or]

theorem resolveStackNamed_tags (resolved : DeploymentConfig) (environment : Str) :
    (resolveStackNamed resolved environment).deployment.tags = resolved.deployment.tags := by
  unfold resolveStackNamed
  split <;> rfl

theorem resolveStackNamed_name (resolved : DeploymentConfig) (environment : Str) :
    (resolveStackNamed resolved environment).application.name =
      resolved.application.name := by
  unfold resolveStackNamed
  split <;> rfl

def c4Config : DeploymentConfig :=
  { application := { name := S "my-app", type := AppType.backend, version := none }
    aws := { region := none, profile := none }
    frontend := none
    backend := none
    deployment := { stack_name := none
                    tags := some [(S "Environment", S "custom")]
                    enable_monitoring := none } }

/-- C4 counterexample: a caller-supplied `Environment` tag survives —
the object spread `{ Environment, Application, ...tags }` puts the user
tags last, so they win over the derived values, contrary to the claim. -/
theorem C4_counterexample :
    tagsGet ((resolveEnvironmentConfig c4Config (S "prod") emptyOverrides).deployment.tags.getD [])
        (S "Environment") = some (S "custom") ∧
    S "custom" ≠ S "prod" := by
  constructor
  · decide
  · decide

/-- C4 (amended): the derived `Environment`/`Application` tags are only
defaults: a user/override tag under the same key wins, and all other
user tags are preserved verbatim. -/
theorem C4_tag_precedence (config : DeploymentConfig) (environment : Str)
    (overrides : PartialDeploymentConfig) :
    ∃ t, (resolveEnvironmentConfig config environment overrides).deployment.tags = some t ∧
      tagsGet t (S "Environment") =
        (lastGet ((deepMerge config overrides).deployment.tags.getD []) (S "Environment")).or
          (some environment) ∧
      tagsGet t (S "Application") =
        (lastGet ((deepMerge config overrides).deployment.tags.getD []) (S "Application")).or
          (some (deepMerge config overrides).application.name) ∧
      (∀ k, k ≠ S "Environment" → k ≠ S "Application" →
        tagsGet t k = lastGet ((deepMerge config overrides).deployment.tags.getD []) k) := by
  refine ⟨tagsMerge
      [(S "Environment", environment),
       (S "Application", (deepMerge config overrides).application.name)]
      ((deepMerge config overrides).deployment.tags.getD []), ?_, ?_, ?_, ?_⟩
  · show some (tagsMerge
        [(S "Environment", environment),
         (S "Application",
           (resolveStackNamed (deepMerge config overrides) environment).application.name)]
        ((resolveStackNamed (deepMerge config overrides) environment).deployment.tags.getD []))
      = _
    rw [resolveStackNamed_name, resolveStackNamed_tags]
  · rw [tagsGet_merge]
    rw [show tagsGet
      [(S "Environment", environment),
       (S "Application", (deepMerge config overrides).application.name)]
      (S "Environment") = some environment from by rw [tagsGet, if_pos rfl]]
  · rw [tagsGet_merge]
    rw [show tagsGet
      [(S "Environment", environment),
       (S "Application", (deepMerge config overrides).application.name)]
      (S "Application") = some (deepMerge config overrides).application.name from by
        rw [tagsGet, if_neg (show ¬ ((S "Environment", environment) :
              Str × Str).1 = S "Application" from fun h =>
            (by decide : ¬ S "Environment" = S "Application") h),
          tagsGet, if_pos rfl]]
  · intro k hk1 hk2
    rw [tagsGet_merge]
    rw [show tagsGet
      [(S "Environment", environment),
       (S "Application", (deepMerge config overrides).application.name)] k = none from by
        rw [tagsGet, if_neg (fun h => hk1 h.symm), tagsGet,
          if_neg (fun h => hk2 h.symm)]
        rfl]
    rw [Option.or_none]

def c4wConfig : DeploymentConfig :=
  { application := { name := S "my-app", type := AppType.backend, version := none }
    aws := { region := none, profile := none }
    frontend := none
    backend := none
    deployment := { stack_name := none
                    tags := some [(S "CostCenter", S "research"),
                                  (S "Environment", S "custom")]
                    enable_monitoring := none } }

theorem C4_witness :
    ∃ t, (resolveEnvironmentConfig c4wConfig (S "prod") emptyOverrides).deployment.tags =
        some t ∧
      tagsGet t (S "Environment") =
        (lastGet ((deepMerge c4wConfig emptyOverrides).deployment.tags.getD [])
          (S "Environment")).or (some (S "prod")) ∧
      tagsGet t (S "Application") =
        (lastGet ((deepMerge c4wConfig emptyOverrides).deployment.tags.getD [])
          (S "Application")).or (some (deepMerge c4wConfig emptyOverrides).application.name) ∧
      tagsGet t (S "CostCenter") =
        lastGet ((deepMerge c4wConfig emptyOverrides).deployment.tags.getD [])
          (S "CostCenter") := by
  obtain ⟨t, ht, hE, hA, hother⟩ := C4_tag_precedence c4wConfig (S "prod") emptyOverrides
  exact ⟨t, ht, hE, hA, hother (S "CostCenter") (by decide) (by decide)⟩

/-! ## Claim C9: conflict detection -/

theorem conflicts_pipeline : ∀ (l : List (Str × Option Str)) (es : List Str),
    (l.filterMap fun p =>
      match p.2 with
      | none => none
      | some name =>
        if name ≠ [] ∧ es.contains (jsToLowerStr name) then some (p.1 ++ S ": " ++ name)
        else none) =
    ((l.filterMap fun p => p.2.map fun n => (p.1, n)).filter fun p =>
        decide (p.2 ≠ []) && es.contains (jsToLowerStr p.2)).map
      fun p => p.1 ++ S ": " ++ p.2 := by
  intro l es
  induction l with
  | nil => rfl
  | cons p t ih =>
    cases hp : p.2 with
    | none =>
      rw [List.filterMap_cons_none (by rw [hp]),
        @List.filterMap_cons_none _ _ (fun q : Str × Option Str => q.2.map fun n => (q.1, n))
          p t (by show Option.map (fun n => (p.1, n)) p.2 = none; rw [hp]; rfl), ih]
    | some name =>
      by_cases hc : name ≠ [] ∧ es.contains (jsToLowerStr name) = true
      · rw [List.filterMap_cons_some (by rw [hp]; exact if_pos hc),
          @List.filterMap_cons_some _ _ (fun q : Str × Option Str => q.2.map fun n => (q.1, n))
            p t (p.1, name)
            (by show Option.map (fun n => (p.1, n)) p.2 = some (p.1, name); rw [hp]; rfl),
          @List.filter_cons_of_pos _
            (fun q : Str × Str => decide (q.2 ≠ []) && es.contains (jsToLowerStr q.2))
            (p.1, name) _
            (by show (decide (name ≠ []) && es.contains (jsToLowerStr name)) = true
                rw [hc.2, decide_eq_true hc.1, Bool.and_self]),
          List.map_cons, ih]
      · rw [List.filterMap_cons_none (by rw [hp]; exact if_neg hc),
          @List.filterMap_cons_some _ _ (fun q : Str × Option Str => q.2.map fun n => (q.1, n))
            p t (p.1, name)
            (by show Option.map (fun n => (p.1, n)) p.2 = some (p.1, name); rw [hp]; rfl),
          @List.filter_cons_of_neg _
            (fun q : Str × Str => decide (q.2 ≠ []) && es.contains (jsToLowerStr q.2))
            (p.1, name) _
            (by show ¬ (decide (name ≠ []) && es.contains (jsToLowerStr name)) = true
                simpa using fun h1 h2 => hc ⟨h1, h2⟩),
          ih]

/-- C9 (amended): the conflicts list is exactly the populated,
**non-empty** names whose lowercased form occurs among the lowercased
existing names, each formatted `"<field>: <name>"`, in field order; in
particular `My-App-Stack` collides with `my-app-stack`. -/
theorem C9_conflicts (r : ResourceNames) (existing : List Str) :
    checkNamingConflicts r existing =
      (((fieldEntries r).filterMap fun p => p.2.map fun n => (p.1, n)).filter fun p =>
          decide (p.2 ≠ []) && (existing.map jsToLowerStr).contains (jsToLowerStr p.2)).map
        (fun p => p.1 ++ S ": " ++ p.2) ∧
    checkNamingConflicts
      { stackName := S "My-App-Stack", s3BucketName := none, lambdaFunctionName := none,
        lambdaExecutionRoleName := none, apiGatewayName := none, logGroupName := none }
      [S "my-app-stack"] = [S "stackName: My-App-Stack"] := by
  constructor
  · exact conflicts_pipeline (fieldEntries r) (existing.map jsToLowerStr)
  · decide

/-- C9 counterexample: a populated field holding the empty string is
skipped by the truthiness test `if (name && ...)` even when the empty
string occurs among the existing names. -/
theorem C9_counterexample :
    checkNamingConflicts
      { stackName := [], s3BucketName := none, lambdaFunctionName := none,
        lambdaExecutionRoleName := none, apiGatewayName := none, logGroupName := none }
      [([] : Str)] = [] ∧
    (([([] : Str)].map jsToLowerStr).contains (jsToLowerStr ([] : Str))) = true := by
  constructor
  · decide
  · decide

/-! ## Claim C8: `deploy` never throws and structures its failures -/

/-- C8: `deploy` always yields a `DeploymentResult` (the embedding is a
total function); on success there is no `errors` key, and on failure the
result carries exactly one `DeploymentError` with the fixed code and
remediation hint and empty resource/endpoint lists. -/
theorem C8_deploy_total (env : AwsEnv) (config : DeploymentConfig) :
    ((deploy env config).success = true ∧ (deploy env config).errors = none) ∨
    ((deploy env config).success = false ∧
      ∃ msg, (deploy env config).errors =
          some [{ code := S "DEPLOYMENT_FAILED", message := msg,
                  remediation :=
                    S "Check AWS CloudFormation console for detailed error information" }] ∧
        (deploy env config).resources = [] ∧ (deploy env config).endpoints = []) := by
  unfold deploy
  cases deploySteps env config with
  | ok v =>
    obtain ⟨resources, endpoints⟩ := v
    left
    exact ⟨rfl, rfl⟩
  | error msg =>
    right
    exact ⟨rfl, msg, rfl, rfl, rfl⟩

/-! ## Claim C5: "No updates are to be performed" is success -/

/-- C5: when the create/update submission or the subsequent wait fails
with a message containing "No updates are to be performed", the error is
reclassified: the stack is re-fetched and — provided that re-fetch and
the remaining code-sync collaborators succeed — `deploy` returns a
successful `DeploymentResult`. -/
theorem C5_no_updates_is_success (env : AwsEnv) (config : DeploymentConfig)
    (stack : Stack) (e : Str) :
    validateDeployment config = .ok () →
    (∃ t, env.templateResult = .ok t) →
    deployStackAttempt env (deployStackName config) = .error e →
    strContains e (S "No updates are to be performed") = true →
    env.refetch = .ok (some stack) →
    env.s3Deploy = .ok () →
    env.lambdaUpdate = .ok () →
    (deploy env config).success = true ∧ (deploy env config).errors = none := by
  rintro hv ⟨t, ht⟩ hatt hsub href hs3 hlam
  have hds : deployStack env (deployStackName config) = .ok (some stack) := by
    unfold deployStack
    rw [hatt]
    show (if strContains e (S "No updates are to be performed") = true then env.refetch
      else Except.error e) = _
    rw [if_pos hsub]
    exact href
  have hfront : frontendCodeStep env config (some stack) = .ok () := by
    unfold frontendCodeStep
    split
    · exact hs3
    · rfl
  have hback : backendCodeStep env config (some stack) = .ok () := by
    unfold backendCodeStep
    split
    · exact hlam
    · rfl
  have happ : deployApplicationCode env config (some stack) = .ok () := by
    unfold deployApplicationCode
    rw [hfront]
    exact hback
  obtain ⟨re, hsteps⟩ : ∃ re, deploySteps env config = .ok re := by
    unfold deploySteps
    rw [hv, ht, hds]
    dsimp only
    rw [happ]
    exact ⟨_, rfl⟩
  obtain ⟨resources, endpoints⟩ := re
  constructor
  · show (deploy env config).success = true
    unfold deploy
    rw [hsteps]
  · show (deploy env config).errors = none
    unfold deploy
    rw [hsteps]

def c5Stack : Stack :=
  { StackName := S "s", StackStatus := S "UPDATE_COMPLETE", Outputs := none,
    Region := none, AccountId := none }

def c5Env : AwsEnv :=
  { uuid := S "id"
    templateResult := .ok (S "template")
    describe1 := .ok (some c5Stack)
    sendCreate := .ok ()
    sendUpdate := .error (S "No updates are to be performed.")
    poll := fun _ => .ok (some c5Stack)
    pollDelay := fun _ => 0
    refetch := .ok (some c5Stack)
    s3Deploy := .ok ()
    lambdaUpdate := .ok () }

def c5Config : DeploymentConfig :=
  { application := { name := S "my-app", type := AppType.backend, version := none }
    aws := { region := none, profile := none }
    frontend := none
    backend := some { source_dir := some (S "./src"), handler := some (S "index.handler"),
                      runtime := none, timeout := none, memory := none,
                      environment_variables := none }
    deployment := { stack_name := some (S "s"), tags := none, enable_monitoring := none } }

theorem C5_witness :
    (deploy c5Env c5Config).success = true ∧ (deploy c5Env c5Config).errors = none :=
  C5_no_updates_is_success c5Env c5Config c5Stack (S "No updates are to be performed.")
    rfl ⟨S "template", rfl⟩ rfl (by decide) rfl rfl rfl

/-! ## Claim C6: the polling loop times out rather than spinning -/

theorem waitLoop_timeout (env : AwsEnv) (stackName : Str)
    (h : ∀ i, ∃ st, env.poll i = .ok (some st) ∧
        strEndsWith st.StackStatus (S "_COMPLETE") = false ∧
        strEndsWith st.StackStatus (S "_FAILED") = false) :
    ∀ (fuel i elapsed : Nat), 1800000 - elapsed ≤ fuel →
      waitLoop env stackName 1800000 i elapsed =
        .error (S "Stack operation timed out after " ++ toDecimal (1800000 / 1000) ++
          S " seconds") := by
  intro fuel
  induction fuel with
  | zero =>
    intro i elapsed hf
    rw [waitLoop, dif_neg (by omega)]
  | succ f ih =>
    intro i elapsed hf
    rw [waitLoop]
    by_cases hel : elapsed < 1800000
    · rw [dif_pos hel]
      obtain ⟨st, hpoll, hc, hfl⟩ := h i
      rw [hpoll]
      simp only [hc, hfl, Bool.false_eq_true, if_false]
      exact ih (i + 1) (elapsed + 10000 + env.pollDelay i) (by omega)
    · rw [dif_neg hel]

/-- C6: if no polled status is ever terminal, `waitForStackOperation`
(with its default 30-minute budget and 10-second probes) terminates in
the timeout error naming the wait in seconds, and a `deploy` whose flow
reaches the polling loop converts it into a failed result carrying that
message. -/
theorem C6_timeout (env : AwsEnv) (config : DeploymentConfig) (stackName : Str) :
    (∀ i, ∃ st, env.poll i = .ok (some st) ∧
        strEndsWith st.StackStatus (S "_COMPLETE") = false ∧
        strEndsWith st.StackStatus (S "_FAILED") = false) →
    (waitForStackOperation env stackName =
        .error (S "Stack operation timed out after 1800 seconds") ∧
      (validateDeployment config = .ok () → (∃ t, env.templateResult = .ok t) →
        env.describe1 = .ok none → env.sendCreate = .ok () →
        (deploy env config).success = false ∧
          (deploy env config).errors =
            some [{ code := S "DEPLOYMENT_FAILED",
                    message := S "Stack operation timed out after 1800 seconds",
                    remediation :=
                      S "Check AWS CloudFormation console for detailed error information" }])) := by
  intro h
  have hmsg : S "Stack operation timed out after " ++ toDecimal (1800000 / 1000) ++
      S " seconds" = S "Stack operation timed out after 1800 seconds" := by decide
  have hwait : ∀ nm, waitForStackOperation env nm =
      .error (S "Stack operation timed out after 1800 seconds") := by
    intro nm
    rw [waitForStackOperation, waitLoop_timeout env nm h 1800000 0 0 (by omega), hmsg]
  refine ⟨hwait stackName, ?_⟩
  rintro hv ⟨t, ht⟩ hd1 hcr
  have hds : deployStack env (deployStackName config) =
      .error (S "Stack operation timed out after 1800 seconds") := by
    unfold deployStack deployStackAttempt
    rw [hd1, hcr, hwait (deployStackName config)]
    show (if strContains (S "Stack operation timed out after 1800 seconds")
        (S "No updates are to be performed") = true then env.refetch
      else Except.error (S "Stack operation timed out after 1800 seconds")) = _
    rw [if_neg (by decide)]
  have hsteps : deploySteps env config =
      .error (S "Stack operation timed out after 1800 seconds") := by
    unfold deploySteps
    rw [hv, ht, hds]
  constructor
  · show (deploy env config).success = false
    unfold deploy
    rw [hsteps]
  · show (deploy env config).errors = _
    unfold deploy
    rw [hsteps]

def c6Stack : Stack :=
  { StackName := S "s", StackStatus := S "CREATE_IN_PROGRESS", Outputs := none,
    Region := none, AccountId := none }

def c6Env : AwsEnv :=
  { uuid := S "id"
    templateResult := .ok (S "template")
    describe1 := .ok none
    sendCreate := .ok ()
    sendUpdate := .ok ()
    poll := fun _ => .ok (some c6Stack)
    pollDelay := fun _ => 0
    refetch := .ok none
    s3Deploy := .ok ()
    lambdaUpdate := .ok () }

theorem C6_witness :
    waitForStackOperation c6Env (S "s") =
        .error (S "Stack operation timed out after 1800 seconds") ∧
    (deploy c6Env c5Config).success = false := by
  have h := C6_timeout c6Env c5Config (S "s")
    (fun i => ⟨c6Stack, rfl, by decide, by decide⟩)
  exact ⟨h.1, (h.2 rfl ⟨S "template", rfl⟩ rfl rfl).1⟩

/-! ## Claim C7: completion and success are distinct -/

theorem waitLoop_ok_clean (env : AwsEnv) (stackName : Str) :
    ∀ (fuel i elapsed : Nat), 1800000 - elapsed ≤ fuel →
      ∀ st, waitLoop env stackName 1800000 i elapsed = .ok st →
        strEndsWith st.StackStatus (S "_COMPLETE") = true ∧
        strContains st.StackStatus (S "FAILED") = false ∧
        strContains st.StackStatus (S "ROLLBACK") = false := by
  intro fuel
  induction fuel with
  | zero =>
    intro i elapsed hf st hok
    rw [waitLoop, dif_neg (by omega)] at hok
    cases hok
  | succ f ih =>
    intro i elapsed hf st hok
    rw [waitLoop] at hok
    by_cases hel : elapsed < 1800000
    · rw [dif_pos hel] at hok
      cases hpoll : env.poll i with
      | error e =>
        rw [hpoll] at hok
        cases hok
      | ok ost =>
        rw [hpoll] at hok
        cases ost with
        | none => cases hok
        | some st' =>
          dsimp only at hok
          by_cases hc : strEndsWith st'.StackStatus (S "_COMPLETE") = true
          · rw [if_pos hc] at hok
            by_cases hfr : strContains st'.StackStatus (S "FAILED") = true ∨
                strContains st'.StackStatus (S "ROLLBACK") = true
            · rw [if_pos hfr] at hok
              cases hok
            · rw [if_neg hfr] at hok
              cases hok
              push_neg at hfr
              exact ⟨hc, Bool.not_eq_true _ ▸ hfr.1, Bool.not_eq_true _ ▸ hfr.2⟩
          · rw [if_neg hc] at hok
            by_cases hfl : strEndsWith st'.StackStatus (S "_FAILED") = true
            · rw [if_pos hfl] at hok
              cases hok
            · rw [if_neg hfl] at hok
              exact ih (i + 1) (elapsed + 10000 + env.pollDelay i) (by omega) st hok
    · rw [dif_neg hel] at hok
      cases hok

/-- C7: a first-poll status ending in `_COMPLETE` but containing
`FAILED` or `ROLLBACK` makes the wait fail with the literal status in
the message, and conversely a successful wait only ever returns a stack
whose status ends in `_COMPLETE` and contains neither `FAILED` nor
`ROLLBACK`. -/
theorem C7_rollback_is_failure (env : AwsEnv) (stackName : Str) :
    (∀ st, env.poll 0 = .ok (some st) →
      strEndsWith st.StackStatus (S "_COMPLETE") = true →
      (strContains st.StackStatus (S "FAILED") = true ∨
       strContains st.StackStatus (S "ROLLBACK") = true) →
      waitForStackOperation env stackName =
        .error (S "Stack operation failed with status: " ++ st.StackStatus)) ∧
    (∀ st, waitForStackOperation env stackName = .ok st →
      strEndsWith st.StackStatus (S "_COMPLETE") = true ∧
      strContains st.StackStatus (S "FAILED") = false ∧
      strContains st.StackStatus (S "ROLLBACK") = false) := by
  constructor
  · intro st hpoll hc hfr
    rw [waitForStackOperation, waitLoop, dif_pos (by omega), hpoll]
    dsimp only
    rw [if_pos hc, if_pos hfr]
  · intro st hok
    exact waitLoop_ok_clean env stackName 1800000 0 0 (by omega) st hok

def c7Stack : Stack :=
  { StackName := S "s", StackStatus := S "ROLLBACK_COMPLETE", Outputs := none,
    Region := none, AccountId := none }

def c7Env : AwsEnv :=
  { uuid := S "id"
    templateResult := .ok (S "template")
    describe1 := .ok none
    sendCreate := .ok ()
    sendUpdate := .ok ()
    poll := fun _ => .ok (some c7Stack)
    pollDelay := fun _ => 0
    refetch := .ok none
    s3Deploy := .ok ()
    lambdaUpdate := .ok () }

theorem C7_witness :
    waitForStackOperation c7Env (S "s") =
      .error (S "Stack operation failed with status: " ++ S "ROLLBACK_COMPLETE") :=
  (C7_rollback_is_failure c7Env (S "s")).1 c7Stack rfl (by decide) (Or.inr (by decide))

end Resumex
